import Mathlib

/-!
Shallow embedding of `src/hyperglass/ui/components/Card/body.tsx`.

The component `CardBody` destructures `onClick` out of its props, resolves a
background and a foreground color from the ambient Chakra color mode via
`useColorValue`, and renders a `Flex` with nine explicitly written attributes
followed by the spread `{...rest}` of the residual props.  We embed the
attribute set handed to the rendering primitive as an ordered list of
(name, value) pairs written in source order; JSX builds the props object
left to right, so a later entry with the same name overrides an earlier one
(last-write-wins).
-/

/-- Modelled from the spec: the ambient theme mode provided by `~/context`
(not under `src/`), the exhaustive enumeration {Light, Dark}. -/
inductive ThemeMode : Type where
  | light : ThemeMode
  | dark : ThemeMode
deriving DecidableEq, Repr

/-- A JSX attribute value: a plain string value, a click-handler callback
(abstracted by its identity in `α`), or the JavaScript `undefined` value. -/
inductive AttrValue (α : Type) : Type where
  | str : String → AttrValue α
  | handler : α → AttrValue α
  | undef : AttrValue α
deriving DecidableEq, Repr

/-- Modelled from the spec: the props type `ICardBody` from `./types` (not
under `src/`) is an open-ended configuration bag — an optional click callback
plus arbitrary further attributes for the rendering primitive.  We embed it
as an ordered attribute list; a JavaScript object has unique keys, but none
of the development depends on that. -/
abbrev ICardBody (α : Type) : Type := List (String × AttrValue α)

/-- Modelled from the spec: `useColorValue` from `~/context` (not under
`src/`) — "return lightValue if mode is Light else darkValue". -/
def useColorValue (mode : ThemeMode) (lightValue darkValue : α) : α :=
  match mode with
  | ThemeMode.light => lightValue
  | ThemeMode.dark => darkValue

/-- Line 8 of body.tsx: `const bg = useColorValue('white', 'original.dark')`. -/
def cardBodyBg (mode : ThemeMode) : AttrValue α :=
  useColorValue mode (AttrValue.str "white") (AttrValue.str "original.dark")

/-- Line 9 of body.tsx: `const color = useColorValue('original.dark', 'white')`. -/
def cardBodyColor (mode : ThemeMode) : AttrValue α :=
  useColorValue mode (AttrValue.str "original.dark") (AttrValue.str "white")

/-- First-occurrence lookup in an attribute list.  On a props bag with unique
keys this is JavaScript property access; on the merged JSX attribute list it
reads the first-written entry, i.e. the computed default when the component
wrote one. -/
def getAttr? (attrs : ICardBody α) (k : String) : Option (AttrValue α) :=
  (attrs.find? fun p => p.1 = k).map Prod.snd

/-- JavaScript property access `props[k]`: `undefined` when the key is absent.
The destructuring `const { onClick, ...rest } = props` binds `onClick` to
`jsGet props "onClick"`. -/
def jsGet (props : ICardBody α) (k : String) : AttrValue α :=
  (getAttr? props k).getD AttrValue.undef

/-- The residual bag `rest` of `const { onClick, ...rest } = props`: every
entry of `props` except the `onClick` key. -/
def restProps (props : ICardBody α) : ICardBody α :=
  props.filter fun p => p.1 ≠ "onClick"

/-- Last-write-wins resolution of an attribute list: the value the built JSX
props object finally carries for key `k`, i.e. the last entry with that name,
or `none` when no entry has it. -/
def resolvedAttr : ICardBody α → String → Option (AttrValue α)
  | [], _ => none
  | (k₁, v) :: attrs, k =>
    match resolvedAttr attrs k with
    | some w => some w
    | none => if k₁ = k then some v else none

/-- `CardBody` (body.tsx lines 6-23): the full attribute set passed to the
`Flex` rendering primitive, in source order — the nine explicit attributes
followed by the spread residual props. -/
def cardBody (mode : ThemeMode) (props : ICardBody α) : ICardBody α :=
  [("bg", cardBodyBg mode),
   ("w", AttrValue.str "100%"),
   ("maxW", AttrValue.str "100%"),
   ("rounded", AttrValue.str "md"),
   ("color", cardBodyColor mode),
   ("onClick", jsGet props "onClick"),
   ("overflow", AttrValue.str "hidden"),
   ("borderWidth", AttrValue.str "1px"),
   ("direction", AttrValue.str "column")] ++ restProps props

/-- The shared theme context the component reads (and could in principle
mutate) during a render. -/
structure ThemeContext : Type where
  mode : ThemeMode
deriving DecidableEq, Repr

/-- One render of `CardBody` with the ambient context made explicit: it
returns the attribute set passed to `Flex` together with the resulting
context, so any effect on the shared theme state would be visible in the
second component. -/
def renderCardBody (ctx : ThemeContext) (props : ICardBody α) :
    ICardBody α × ThemeContext :=
  (cardBody ctx.mode props, ctx)

/-! ### Helper lemmas -/

theorem resolvedAttr_append (l₁ l₂ : ICardBody α) (k : String) :
    resolvedAttr (l₁ ++ l₂) k =
      match resolvedAttr l₂ k with
      | some w => some w
      | none => resolvedAttr l₁ k := by
  induction l₁ with
  | nil => cases h₂ : resolvedAttr l₂ k <;> simp [resolvedAttr, h₂]
  | cons a l ih =>
    obtain ⟨k₁, v⟩ := a
    simp only [List.cons_append, resolvedAttr, List.append_eq]
    rw [ih]
    cases h₂ : resolvedAttr l₂ k <;> cases h₃ : resolvedAttr l k <;>
      simp [resolvedAttr, h₂, h₃]

theorem resolvedAttr_restProps (props : ICardBody α) (k : String)
    (hk : k ≠ "onClick") :
    resolvedAttr (restProps props) k = resolvedAttr props k := by
  induction props with
  | nil => rfl
  | cons a l ih =>
    obtain ⟨k₁, v⟩ := a
    by_cases h₁ : k₁ = "onClick"
    · subst h₁
      have hif : restProps (("onClick", v) :: l) = restProps l := by
        simp [restProps, List.filter_cons]
      rw [hif, ih]
      have hne : ¬(("onClick" : String) = k) := fun h => hk h.symm
      cases h₂ : resolvedAttr l k <;> simp [resolvedAttr, h₂, hne]
    · have hif : restProps ((k₁, v) :: l) = (k₁, v) :: restProps l := by
        simp [restProps, List.filter_cons, h₁]
      rw [hif]
      simp only [resolvedAttr]
      rw [ih]

theorem resolvedAttr_restProps_self (props : ICardBody α) :
    resolvedAttr (restProps props) "onClick" = none := by
  induction props with
  | nil => rfl
  | cons a l ih =>
    obtain ⟨k₁, v⟩ := a
    by_cases h₁ : k₁ = "onClick"
    · subst h₁
      have h : restProps (("onClick", v) :: l) = restProps l := by
        simp [restProps, List.filter_cons]
      rw [h]; exact ih
    · have h : restProps ((k₁, v) :: l) = (k₁, v) :: restProps l := by
        simp [restProps, List.filter_cons, h₁]
      rw [h]
      simp [resolvedAttr, ih, h₁]

theorem filter_onClick_restProps (props : ICardBody α) :
    (restProps props).filter (fun p => p.1 = "onClick") = [] := by
  induction props with
  | nil => rfl
  | cons a l ih =>
    obtain ⟨k₁, v⟩ := a
    by_cases h₁ : k₁ = "onClick"
    · subst h₁
      have h : restProps (("onClick", v) :: l) = restProps l := by
        simp [restProps, List.filter_cons]
      rw [h]; exact ih
    · have h : restProps ((k₁, v) :: l) = (k₁, v) :: restProps l := by
        simp [restProps, List.filter_cons, h₁]
      rw [h, List.filter_cons]
      simp [h₁, ih]

/-! ### Claim theorems -/

/-- C1: for every props object, under the Light mode the resolved background
color of the rendered container is white and the resolved foreground color is
the fixed dark color "original.dark": they are the computed `bg`/`color`
defaults in the attribute set passed to `Flex`, and they are the final merged
values whenever the caller does not override those attributes. -/
theorem cardBody_light_colors {α : Type} (props : ICardBody α) :
    getAttr? (cardBody ThemeMode.light props) "bg" = some (AttrValue.str "white") ∧
    getAttr? (cardBody ThemeMode.light props) "color" = some (AttrValue.str "original.dark") ∧
    (resolvedAttr props "bg" = none →
      resolvedAttr (cardBody ThemeMode.light props) "bg" = some (AttrValue.str "white")) ∧
    (resolvedAttr props "color" = none →
      resolvedAttr (cardBody ThemeMode.light props) "color" =
        some (AttrValue.str "original.dark")) := by
  refine ⟨rfl, rfl, fun h => ?_, fun h => ?_⟩
  · simp only [cardBody, resolvedAttr_append]
    rw [resolvedAttr_restProps _ _ (by decide), h]
    rfl
  · simp only [cardBody, resolvedAttr_append]
    rw [resolvedAttr_restProps _ _ (by decide), h]
    rfl

/-- Witness for C1 at the empty props bag. -/
theorem cardBody_light_colors_witness :
    resolvedAttr (cardBody ThemeMode.light ([] : ICardBody Nat)) "bg" =
      some (AttrValue.str "white") ∧
    resolvedAttr (cardBody ThemeMode.light ([] : ICardBody Nat)) "color" =
      some (AttrValue.str "original.dark") :=
  ⟨(cardBody_light_colors []).2.2.1 rfl, (cardBody_light_colors []).2.2.2 rfl⟩

/-- C2: for every props object, under the Dark mode the resolved background
color is the fixed dark color and the resolved foreground color is white; and
the foreground mapping is the mirror of the background mapping (the foreground
of each mode equals the background of the other mode). -/
theorem cardBody_dark_colors {α : Type} (props : ICardBody α) :
    getAttr? (cardBody ThemeMode.dark props) "bg" = some (AttrValue.str "original.dark") ∧
    getAttr? (cardBody ThemeMode.dark props) "color" = some (AttrValue.str "white") ∧
    cardBodyColor (α := α) ThemeMode.light = cardBodyBg (α := α) ThemeMode.dark ∧
    cardBodyColor (α := α) ThemeMode.dark = cardBodyBg (α := α) ThemeMode.light ∧
    (resolvedAttr props "bg" = none →
      resolvedAttr (cardBody ThemeMode.dark props) "bg" =
        some (AttrValue.str "original.dark")) ∧
    (resolvedAttr props "color" = none →
      resolvedAttr (cardBody ThemeMode.dark props) "color" =
        some (AttrValue.str "white")) := by
  refine ⟨rfl, rfl, rfl, rfl, fun h => ?_, fun h => ?_⟩
  · simp only [cardBody, resolvedAttr_append]
    rw [resolvedAttr_restProps _ _ (by decide), h]
    rfl
  · simp only [cardBody, resolvedAttr_append]
    rw [resolvedAttr_restProps _ _ (by decide), h]
    rfl

/-- Witness for C2 at the empty props bag. -/
theorem cardBody_dark_colors_witness :
    resolvedAttr (cardBody ThemeMode.dark ([] : ICardBody Nat)) "bg" =
      some (AttrValue.str "original.dark") ∧
    resolvedAttr (cardBody ThemeMode.dark ([] : ICardBody Nat)) "color" =
      some (AttrValue.str "white") :=
  ⟨(cardBody_dark_colors []).2.2.2.2.1 rfl, (cardBody_dark_colors []).2.2.2.2.2 rfl⟩

/-- C3: for every attribute name colliding with a computed default
(background, text color, width, max width, corner radius, border width,
overflow, layout direction), a caller-supplied value wins the last-write-wins
merge: it is the final value of that attribute in the set passed to `Flex`. -/
theorem cardBody_override_law {α : Type} (mode : ThemeMode) (props : ICardBody α)
    (k : String) (v : AttrValue α)
    (hk : k ∈ ["bg", "color", "w", "maxW", "rounded", "borderWidth", "overflow", "direction"])
    (hv : resolvedAttr props k = some v) :
    resolvedAttr (cardBody mode props) k = some v := by
  have hknc : k ≠ "onClick" := by
    simp only [List.mem_cons, List.not_mem_nil, or_false] at hk
    rcases hk with rfl | rfl | rfl | rfl | rfl | rfl | rfl | rfl <;> decide
  simp only [cardBody, resolvedAttr_append]
  rw [resolvedAttr_restProps _ _ hknc, hv]

/-- Witness for C3: a caller-supplied background overrides the computed one. -/
theorem cardBody_override_law_witness :
    resolvedAttr (cardBody ThemeMode.light ([("bg", AttrValue.str "red")] : ICardBody Nat))
      "bg" = some (AttrValue.str "red") :=
  cardBody_override_law ThemeMode.light _ "bg" _ (by decide) (by decide)

/-- C4: for every props object and every mode, the computed structural
defaults in the attribute set passed to `Flex` are width 100%, max width
100%, corner radius "md", border width "1px", overflow hidden and column
layout direction. -/
theorem cardBody_structural_defaults {α : Type} (mode : ThemeMode) (props : ICardBody α) :
    getAttr? (cardBody mode props) "w" = some (AttrValue.str "100%") ∧
    getAttr? (cardBody mode props) "maxW" = some (AttrValue.str "100%") ∧
    getAttr? (cardBody mode props) "rounded" = some (AttrValue.str "md") ∧
    getAttr? (cardBody mode props) "borderWidth" = some (AttrValue.str "1px") ∧
    getAttr? (cardBody mode props) "overflow" = some (AttrValue.str "hidden") ∧
    getAttr? (cardBody mode props) "direction" = some (AttrValue.str "column") :=
  ⟨rfl, rfl, rfl, rfl, rfl, rfl⟩

/-- C5: the click handler forwarded to the rendering primitive is exactly the
caller's `onClick` property: when a callback is supplied it is forwarded
verbatim, and when none is supplied the forwarded value is `undefined`
(no click behavior). -/
theorem cardBody_click_forwarding {α : Type} (mode : ThemeMode) (props : ICardBody α) :
    resolvedAttr (cardBody mode props) "onClick" = some (jsGet props "onClick") ∧
    (∀ f : α, getAttr? props "onClick" = some (AttrValue.handler f) →
      resolvedAttr (cardBody mode props) "onClick" = some (AttrValue.handler f)) ∧
    (getAttr? props "onClick" = none →
      resolvedAttr (cardBody mode props) "onClick" = some AttrValue.undef) := by
  have hbase : resolvedAttr (cardBody mode props) "onClick" = some (jsGet props "onClick") := by
    simp only [cardBody, resolvedAttr_append, resolvedAttr_restProps_self]
    rfl
  refine ⟨hbase, fun f hf => ?_, fun hf => ?_⟩ <;> rw [hbase] <;> simp [jsGet, hf]

/-- Witness for C5: a supplied callback is forwarded, an absent one yields
`undefined`. -/
theorem cardBody_click_forwarding_witness :
    resolvedAttr (cardBody ThemeMode.light ([("onClick", AttrValue.handler 7)] : ICardBody Nat))
      "onClick" = some (AttrValue.handler 7) ∧
    resolvedAttr (cardBody ThemeMode.light ([] : ICardBody Nat)) "onClick" =
      some AttrValue.undef :=
  ⟨(cardBody_click_forwarding ThemeMode.light _).2.1 7 rfl,
   (cardBody_click_forwarding ThemeMode.light _).2.2 rfl⟩

/-- C6: rendering is deterministic: a second render performed in the context
left by a first render with the same props yields the same attribute set, and
any two contexts with the same mode yield the same attribute set. -/
theorem renderCardBody_deterministic {α : Type} (ctx : ThemeContext) (props : ICardBody α) :
    (renderCardBody ((renderCardBody ctx props).2) props).1 = (renderCardBody ctx props).1 ∧
    ∀ ctx₂ : ThemeContext, ctx₂.mode = ctx.mode →
      (renderCardBody ctx₂ props).1 = (renderCardBody ctx props).1 := by
  refine ⟨rfl, fun ctx₂ h => ?_⟩
  simp [renderCardBody, h]

/-- Witness for C6 at a concrete context and props bag. -/
theorem renderCardBody_deterministic_witness :
    (renderCardBody ⟨ThemeMode.light⟩ ([("p", AttrValue.str "4")] : ICardBody Nat)).1 =
      (renderCardBody ⟨ThemeMode.light⟩ ([("p", AttrValue.str "4")] : ICardBody Nat)).1 :=
  (renderCardBody_deterministic ⟨ThemeMode.light⟩ _).2 ⟨ThemeMode.light⟩ rfl

/-- C7: rendering leaves the shared theme context unchanged, and its only
output is the attribute set computed from the mode and the props. -/
theorem renderCardBody_frame {α : Type} (ctx : ThemeContext) (props : ICardBody α) :
    (renderCardBody ctx props).2 = ctx ∧
    (renderCardBody ctx props).1 = cardBody ctx.mode props :=
  ⟨rfl, rfl⟩

/-- C8: color selection is total on the exhaustive mode enumeration:
`useColorValue` returns the light value exactly on Light and the dark value
on Dark, with no further case. -/
theorem useColorValue_total {α : Type} (l d : α) :
    (∀ m : ThemeMode, m = ThemeMode.light ∨ m = ThemeMode.dark) ∧
    useColorValue ThemeMode.light l d = l ∧
    useColorValue ThemeMode.dark l d = d ∧
    ∀ m : ThemeMode, useColorValue m l d = if m = ThemeMode.light then l else d := by
  refine ⟨fun m => ?_, rfl, rfl, fun m => ?_⟩ <;> cases m <;> simp [useColorValue]

/-- C9: the residual bag of the destructuring never contains the `onClick`
key, so the attribute set passed to `Flex` carries exactly one `onClick`
entry, whose value is the caller's `onClick` property; the spread can neither
shadow nor duplicate it. -/
theorem cardBody_onClick_unique {α : Type} (mode : ThemeMode) (props : ICardBody α) :
    "onClick" ∉ (restProps props).map Prod.fst ∧
    (cardBody mode props).filter (fun p => p.1 = "onClick") =
      [("onClick", jsGet props "onClick")] ∧
    resolvedAttr (cardBody mode props) "onClick" = some (jsGet props "onClick") := by
  refine ⟨?_, ?_, ?_⟩
  · intro h
    simp only [restProps, List.mem_map, List.mem_filter] at h
    obtain ⟨p, ⟨-, hp⟩, hfst⟩ := h
    rw [hfst] at hp
    simp at hp
  · simp only [cardBody, List.filter_append, filter_onClick_restProps, List.append_nil]
    rfl
  · simp only [cardBody, resolvedAttr_append, resolvedAttr_restProps_self]
    rfl

/-- Witness for C9 at a concrete props bag containing both a callback and a
colliding spread attribute. -/
theorem cardBody_onClick_unique_witness :
    (cardBody ThemeMode.dark ([("onClick", AttrValue.handler 3), ("bg", AttrValue.str "x")] :
        ICardBody Nat)).filter (fun p => p.1 = "onClick") =
      [("onClick", AttrValue.handler 3)] :=
  (cardBody_onClick_unique ThemeMode.dark _).2.1

/-- C10: frame property of the merge: any attribute name other than the nine
the component writes reaches the rendering primitive exactly as the caller
supplied it, and is absent when the caller did not supply it. -/
theorem cardBody_attr_frame {α : Type} (mode : ThemeMode) (props : ICardBody α) (k : String)
    (hk : k ∉ ["bg", "w", "maxW", "rounded", "color", "onClick", "overflow",
               "borderWidth", "direction"]) :
    resolvedAttr (cardBody mode props) k = resolvedAttr props k := by
  simp only [List.mem_cons, List.not_mem_nil, or_false, not_or] at hk
  obtain ⟨h1, h2, h3, h4, h5, h6, h7, h8, h9⟩ := hk
  simp only [cardBody, resolvedAttr_append]
  rw [resolvedAttr_restProps _ _ h6]
  cases hres : resolvedAttr props k with
  | some v => simp
  | none =>
    have g1 : ("bg" : String) ≠ k := fun h => h1 h.symm
    have g2 : ("w" : String) ≠ k := fun h => h2 h.symm
    have g3 : ("maxW" : String) ≠ k := fun h => h3 h.symm
    have g4 : ("rounded" : String) ≠ k := fun h => h4 h.symm
    have g5 : ("color" : String) ≠ k := fun h => h5 h.symm
    have g6 : ("onClick" : String) ≠ k := fun h => h6 h.symm
    have g7 : ("overflow" : String) ≠ k := fun h => h7 h.symm
    have g8 : ("borderWidth" : String) ≠ k := fun h => h8 h.symm
    have g9 : ("direction" : String) ≠ k := fun h => h9 h.symm
    simp [resolvedAttr, g1, g2, g3, g4, g5, g6, g7, g8, g9]

/-- Witness for C10: an unrelated attribute passes through unchanged and is
absent when not supplied. -/
theorem cardBody_attr_frame_witness :
    resolvedAttr (cardBody ThemeMode.light ([("padding", AttrValue.str "2")] : ICardBody Nat))
      "padding" = some (AttrValue.str "2") ∧
    resolvedAttr (cardBody ThemeMode.light ([] : ICardBody Nat)) "padding" = none :=
  ⟨(cardBody_attr_frame ThemeMode.light _ "padding" (by decide)).trans (by decide),
   (cardBody_attr_frame ThemeMode.light _ "padding" (by decide)).trans rfl⟩
